import Mathlib

/-!
Verification of the simulation engine and state-distribution pipeline
(`src/backend/src/broadcast.rs`, `src/backend/src/simulation_engine.rs`,
`src/backend/src/physics/boids.rs`, `src/backend/src/cuda.rs`).

Modelling conventions:
* An `f32` is represented by its 32-bit pattern, a `Nat` below `2^32`.
  `f32::to_le_bytes` / `f32::from_le_bytes` act on the bit pattern only,
  so byte-level packing claims do not depend on IEEE-754 arithmetic.
* Where the code performs genuine `f32` arithmetic (the delta subtraction
  `current - previous`), the embedding is parametric in a function
  `fsub : Nat → Nat → Nat` on bit patterns: layout claims hold for every
  such function.
* Bytes are `Nat`s below `256`.
* `anyhow::Result<T>` becomes `Except String T`.
-/

set_option autoImplicit false

/-- Little-endian byte expansion of a 32-bit word, as in `f32::to_le_bytes`
applied to the bit pattern. -/
def toLeBytes (w : Nat) : List Nat :=
  [w % 256, w / 256 % 256, w / 65536 % 256, w / 16777216 % 256]

/-- Reassembling of a 32-bit word from four little-endian bytes, as in
`f32::from_le_bytes` applied to the bit pattern. -/
def fromLeBytes (b0 b1 b2 b3 : Nat) : Nat :=
  b0 + 256 * b1 + 65536 * b2 + 16777216 * b3

theorem fromLeBytes_toLeBytes (w : Nat) (hw : w < 2 ^ 32) :
    fromLeBytes (w % 256) (w / 256 % 256) (w / 65536 % 256) (w / 16777216 % 256) = w := by
  unfold fromLeBytes
  omega

/-- `BroadcastState` (`broadcast.rs`): timestamp, entity count, packed bytes. -/
structure BroadcastState where
  timestamp : Nat
  num_boids : Nat
  data : List Nat
  deriving DecidableEq, Repr

namespace BroadcastState

/-- The packing loop of `BroadcastState::encode` (`broadcast.rs:25-31`):
`state.chunks_exact(4)`, each of the four floats of a chunk emitted as four
little-endian bytes.  A trailing group of fewer than four floats is dropped,
exactly as `chunks_exact` drops it. -/
def encodePayload : List Nat → List Nat
  | a :: b :: c :: d :: rest =>
      toLeBytes a ++ toLeBytes b ++ toLeBytes c ++ toLeBytes d ++ encodePayload rest
  | _ => []

/-- The word loop of `BroadcastState::decode` (`broadcast.rs:47-51`):
`data.chunks_exact(4)`, each complete 4-byte chunk read as one little-endian
float; a trailing group of fewer than four bytes is dropped by
`chunks_exact`. -/
def decodeWords : List Nat → List Nat
  | b0 :: b1 :: b2 :: b3 :: rest => fromLeBytes b0 b1 b2 b3 :: decodeWords rest
  | _ => []

/-- `BroadcastState::decode` (`broadcast.rs:43-54`): decodes every complete
4-byte word and returns `Ok` on every input. -/
def decode (data : List Nat) : Except String (List Nat) :=
  .ok (decodeWords data)

theorem decodeWords_encodePayload (S : List Nat)
    (hlen : S.length % 4 = 0) (hw : ∀ w ∈ S, w < 2 ^ 32) :
    decodeWords (encodePayload S) = S := by
  induction S using encodePayload.induct with
  | case1 a b c d rest ih =>
      have ha : a < 2 ^ 32 := hw a (by simp)
      have hb : b < 2 ^ 32 := hw b (by simp)
      have hc : c < 2 ^ 32 := hw c (by simp)
      have hd : d < 2 ^ 32 := hw d (by simp)
      have hrest : rest.length % 4 = 0 := by
        simp [List.length_cons] at hlen
        omega
      have ih' := ih hrest (fun w hwmem => hw w (by simp [hwmem]))
      simp [encodePayload, toLeBytes, decodeWords, ih',
        fromLeBytes_toLeBytes a ha, fromLeBytes_toLeBytes b hb,
        fromLeBytes_toLeBytes c hc, fromLeBytes_toLeBytes d hd]
  | case2 S hS =>
      match S, hS with
      | [], _ => rfl
      | [a], h => simp at hlen
      | [a, b], h => simp at hlen
      | [a, b, c], h => simp at hlen
      | a :: b :: c :: d :: rest, h => exact (h a b c d rest rfl).elim

theorem decodeWords_length (data : List Nat) :
    (decodeWords data).length = data.length / 4 := by
  induction data using decodeWords.induct with
  | case1 b0 b1 b2 b3 rest ih =>
      simp only [decodeWords, List.length_cons, ih]
      omega
  | case2 data hdata =>
      match data, hdata with
      | [], _ => rfl
      | [a], h => simp [decodeWords]
      | [a, b], h => simp [decodeWords]
      | [a, b, c], h => simp [decodeWords]
      | a :: b :: c :: d :: rest, h => exact (h a b c d rest rfl).elim

end BroadcastState

/-- `DeltaState` (`broadcast.rs:65-70`). -/
structure DeltaState where
  base_timestamp : Nat
  delta_timestamp : Nat
  num_boids : Nat
  deltas : List Nat
  deriving DecidableEq, Repr

namespace DeltaState

/-- The subtraction loop of `DeltaState::encode_delta` (`broadcast.rs:88-95`):
zipped `chunks_exact(4)` over both byte buffers, each pair of words combined
by the `f32` subtraction `fsub` (parameter: IEEE-754 subtraction on bit
patterns) and re-emitted as four little-endian bytes.  The zip stops at the
shorter buffer and drops trailing partial words, as `chunks_exact` does. -/
def deltaBytes (fsub : Nat → Nat → Nat) : List Nat → List Nat → List Nat
  | a :: b :: c :: d :: r1, e :: f :: g :: h :: r2 =>
      toLeBytes (fsub (fromLeBytes a b c d) (fromLeBytes e f g h)) ++
        deltaBytes fsub r1 r2
  | _, _ => []

/-- `DeltaState::encode_delta` (`broadcast.rs:74-103`): on a count mismatch,
returns the current snapshot's bytes verbatim; otherwise the per-word
subtraction.  `delta_timestamp` uses `u64::saturating_sub`, which is `Nat`
subtraction. -/
def encode_delta (fsub : Nat → Nat → Nat) (current previous : BroadcastState) :
    Except String DeltaState :=
  if current.num_boids ≠ previous.num_boids then
    .ok { base_timestamp := current.timestamp
          delta_timestamp := 0
          num_boids := current.num_boids
          deltas := current.data }
  else
    .ok { base_timestamp := previous.timestamp
          delta_timestamp := current.timestamp - previous.timestamp
          num_boids := current.num_boids
          deltas := deltaBytes fsub current.data previous.data }

end DeltaState

/-- Claim C1: For every float sequence whose length is a multiple of 4 (each float a
32-bit pattern), decoding the bytes produced by `BroadcastState::encode`'s
packing returns exactly the original sequence, bit-exact. -/
theorem broadcast_encode_decode_roundtrip (S : List Nat)
    (hlen : S.length % 4 = 0) (hw : ∀ w ∈ S, w < 2 ^ 32) :
    BroadcastState.decode (BroadcastState.encodePayload S) = .ok S := by
  unfold BroadcastState.decode
  rw [BroadcastState.decodeWords_encodePayload S hlen hw]

/-- Witness for C1 at the concrete sequence `[1, 2^31, 5, 4294967295]`. -/
theorem broadcast_encode_decode_roundtrip_witness :
    BroadcastState.decode
      (BroadcastState.encodePayload [1, 2147483648, 5, 4294967295]) =
      .ok [1, 2147483648, 5, 4294967295] :=
  broadcast_encode_decode_roundtrip [1, 2147483648, 5, 4294967295]
    (by decide) (by decide)

theorem decodeWords_append_trailing (data extra : List Nat)
    (hlen : data.length % 4 = 0) (hex : extra.length < 4) :
    BroadcastState.decodeWords (data ++ extra) = BroadcastState.decodeWords data := by
  induction data using BroadcastState.decodeWords.induct with
  | case1 b0 b1 b2 b3 rest ih =>
      have hrest : rest.length % 4 = 0 := by
        simp [List.length_cons] at hlen
        omega
      simp [BroadcastState.decodeWords, ih hrest]
  | case2 data hdata =>
      match data, hdata with
      | [], _ =>
        match extra, hex with
        | [], _ => rfl
        | [a], _ => rfl
        | [a, b], _ => rfl
        | [a, b, c], _ => rfl
      | [a], h => simp at hlen
      | [a, b], h => simp at hlen
      | [a, b, c], h => simp at hlen
      | a :: b :: c :: d :: rest, h => exact (h a b c d rest rfl).elim

/-- Claim C6 (amended): `BroadcastState::decode` accepts every payload and
returns `Ok`, producing one f32 bit pattern per complete 4-byte word; a
trailing partial word (1-3 bytes) is silently discarded, not reported as a
framing error. -/
theorem decode_accepts_any_payload (data extra : List Nat)
    (hlen : data.length % 4 = 0) (hex : extra.length < 4) :
    BroadcastState.decode (data ++ extra) = .ok (BroadcastState.decodeWords data) ∧
    (BroadcastState.decodeWords data).length = data.length / 4 := by
  refine ⟨?_, BroadcastState.decodeWords_length data⟩
  unfold BroadcastState.decode
  rw [decodeWords_append_trailing data extra hlen hex]

/-- Witness for C6 (amended) at a 4-byte payload with 2 trailing bytes. -/
theorem decode_accepts_any_payload_witness :
    BroadcastState.decode ([1, 0, 0, 0] ++ [9, 9]) =
      .ok (BroadcastState.decodeWords [1, 0, 0, 0]) ∧
    (BroadcastState.decodeWords [1, 0, 0, 0]).length = [1, 0, 0, 0].length / 4 :=
  decode_accepts_any_payload [1, 0, 0, 0] [9, 9] (by decide) (by decide)

/-- Counterexample to C6 as stated: a 5-byte payload (length not a multiple
of 4) is decoded to `Ok [0]`, not rejected with a framing error. -/
theorem decode_partial_word_not_an_error :
    BroadcastState.decode [0, 0, 0, 0, 0] = .ok [0] := rfl

/-- Claim C4: for snapshots with differing entity counts, `encode_delta`
returns `Ok` (never an error), and its `deltas` payload is byte-for-byte
`current.data`, the full encoding of the current snapshot. -/
theorem encode_delta_count_mismatch (fsub : Nat → Nat → Nat)
    (current previous : BroadcastState)
    (h : current.num_boids ≠ previous.num_boids) :
    DeltaState.encode_delta fsub current previous =
      .ok { base_timestamp := current.timestamp
            delta_timestamp := 0
            num_boids := current.num_boids
            deltas := current.data } := by
  simp [DeltaState.encode_delta, h]

/-- Witness for C4 at concrete snapshots with counts 2 and 1. -/
theorem encode_delta_count_mismatch_witness :
    DeltaState.encode_delta (fun x _ => x)
      { timestamp := 7, num_boids := 2, data := [1, 2, 3, 4] }
      { timestamp := 3, num_boids := 1, data := [5, 6, 7, 8] } =
      .ok { base_timestamp := 7, delta_timestamp := 0, num_boids := 2,
            deltas := [1, 2, 3, 4] } :=
  encode_delta_count_mismatch (fun x _ => x)
    { timestamp := 7, num_boids := 2, data := [1, 2, 3, 4] }
    { timestamp := 3, num_boids := 1, data := [5, 6, 7, 8] }
    (by decide)

theorem deltaBytes_spec (fsub : Nat → Nat → Nat) (hf : ∀ x y, fsub x y < 2 ^ 32) :
    ∀ xs ys : List Nat, xs.length = ys.length → xs.length % 4 = 0 →
    (DeltaState.deltaBytes fsub xs ys).length = xs.length ∧
    BroadcastState.decodeWords (DeltaState.deltaBytes fsub xs ys) =
      List.zipWith fsub (BroadcastState.decodeWords xs)
        (BroadcastState.decodeWords ys) := by
  intro xs ys
  induction xs, ys using DeltaState.deltaBytes.induct fsub with
  | case1 a b c d r1 e f g h' r2 ih =>
      intro hl h4
      have hl' : r1.length = r2.length := by
        simp [List.length_cons] at hl
        omega
      have h4' : r1.length % 4 = 0 := by
        simp [List.length_cons] at h4
        omega
      have ih' := ih hl' h4'
      constructor
      · simp [DeltaState.deltaBytes, toLeBytes, ih'.1]
      · simp [DeltaState.deltaBytes, toLeBytes, BroadcastState.decodeWords,
          ih'.2,
          fromLeBytes_toLeBytes
            (fsub (fromLeBytes a b c d) (fromLeBytes e f g h')) (hf _ _)]
  | case2 xs ys hfall =>
      intro hl h4
      match xs, ys, hfall with
      | [], ys, _ =>
        have : ys = [] := by
          cases ys with
          | nil => rfl
          | cons y t => simp at hl
        subst this
        exact ⟨rfl, rfl⟩
      | [a], ys, _ => simp at h4
      | [a, b], ys, _ => simp at h4
      | [a, b, c], ys, _ => simp at h4
      | a :: b :: c :: d :: r1, ys, h =>
        match ys with
        | [] => simp at hl
        | [e] => simp at hl
        | [e, f] => simp at hl
        | [e, f, g] => simp at hl
        | e :: f :: g :: h' :: r2 => exact (h a b c d r1 e f g h' r2 rfl rfl).elim

/-- Claim C5: for snapshots with equal entity counts and data buffers of
equal, multiple-of-4 length, `encode_delta` returns `Ok` with a `deltas`
payload of the same length as `current.data` whose i-th little-endian f32
word is the f32 difference (`fsub`, IEEE-754 subtraction on bit patterns) of
the i-th words of `current` and `previous`. -/
theorem encode_delta_same_count (fsub : Nat → Nat → Nat)
    (hf : ∀ x y, fsub x y < 2 ^ 32) (current previous : BroadcastState)
    (hc : current.num_boids = previous.num_boids)
    (hl : current.data.length = previous.data.length)
    (h4 : current.data.length % 4 = 0) :
    ∃ d, DeltaState.encode_delta fsub current previous = .ok d ∧
      d.deltas.length = current.data.length ∧
      BroadcastState.decodeWords d.deltas =
        List.zipWith fsub (BroadcastState.decodeWords current.data)
          (BroadcastState.decodeWords previous.data) := by
  have hs := deltaBytes_spec fsub hf current.data previous.data hl h4
  refine ⟨{ base_timestamp := previous.timestamp
            delta_timestamp := current.timestamp - previous.timestamp
            num_boids := current.num_boids
            deltas := DeltaState.deltaBytes fsub current.data previous.data },
    ?_, hs.1, hs.2⟩
  simp [DeltaState.encode_delta, hc]

/-- Witness for C5 at concrete one-word snapshots with `fsub` wrapping
subtraction of bit patterns. -/
theorem encode_delta_same_count_witness :
    ∃ d, DeltaState.encode_delta (fun x y => (x - y) % 2 ^ 32)
        { timestamp := 9, num_boids := 1, data := [10, 0, 0, 0] }
        { timestamp := 4, num_boids := 1, data := [3, 0, 0, 0] } = .ok d ∧
      d.deltas.length = 4 ∧
      BroadcastState.decodeWords d.deltas =
        List.zipWith (fun x y => (x - y) % 2 ^ 32)
          (BroadcastState.decodeWords [10, 0, 0, 0])
          (BroadcastState.decodeWords [3, 0, 0, 0]) :=
  encode_delta_same_count (fun x y => (x - y) % 2 ^ 32)
    (fun x y => Nat.mod_lt _ (by decide))
    { timestamp := 9, num_boids := 1, data := [10, 0, 0, 0] }
    { timestamp := 4, num_boids := 1, data := [3, 0, 0, 0] }
    (by decide) (by decide) (by decide)

/-!
Dirty-flag state machine of `BoidsSimulation` (`physics/boids.rs`).

The flag evolution depends only on whether the PTX kernel was loaded at
construction (`ptx.is_some()`, which holds exactly when the SoA device
buffers `d_x..d_species` were allocated, `boids.rs:132-153`) and on the two
flags themselves, so the embedding carries exactly those fields.  Every
fallible device operation in the source mutates the flags only after all
its copies succeed, so an erroring call leaves the flags as they were and
adds no reachable flag states beyond the success-path transitions below.
-/

/-- Flag-relevant state of `BoidsSimulation` (`boids.rs:79-100`).  `ptx` is
`ptx.is_some()`; `hasSoa` is `has_soa()` (`boids.rs:380-386`); both are
fixed after `new`. -/
structure BoidsSimulation where
  ptx : Bool
  hasSoa : Bool
  soa_dirty : Bool
  aos_dirty : Bool
  last_used_cuda : Bool
  deriving DecidableEq, Repr

namespace BoidsSimulation

/-- `BoidsSimulation::new` (`boids.rs:103-175`): `soa_dirty` starts `true`
and is cleared (and the SoA buffers and PTX installed) exactly when the PTX
kernel loads; `aos_dirty` and `last_used_cuda` start `false`. -/
def new (ptxLoaded : Bool) : BoidsSimulation :=
  { ptx := ptxLoaded
    hasSoa := ptxLoaded
    soa_dirty := !ptxLoaded
    aos_dirty := false
    last_used_cuda := false }

/-- `sync_soa_from_aos` (`boids.rs:388-418`): without SoA buffers it clears
`soa_dirty` and returns; with them it copies AoS → SoA and then clears
`soa_dirty`.  `aos_dirty` is untouched in both branches. -/
def sync_soa_from_aos (s : BoidsSimulation) : BoidsSimulation :=
  if !s.hasSoa then { s with soa_dirty := false }
  else { s with soa_dirty := false }

/-- `sync_aos_from_soa` (`boids.rs:420-454`): without SoA buffers it clears
`aos_dirty` and returns; with them it copies SoA → AoS and then clears
`aos_dirty`.  `soa_dirty` is untouched in both branches. -/
def sync_aos_from_soa (s : BoidsSimulation) : BoidsSimulation :=
  if !s.hasSoa then { s with aos_dirty := false }
  else { s with aos_dirty := false }

/-- `ensure_aos_current` (`boids.rs:456-461`). -/
def ensure_aos_current (s : BoidsSimulation) : BoidsSimulation :=
  if s.aos_dirty then sync_aos_from_soa s else s

/-- `BoidsSimulation::step` (`boids.rs:181-378`): the kernel path (PTX and
SoA present) syncs SoA if stale, launches, then marks AoS stale and SoA
authoritative; the CPU fallback syncs AoS if stale, runs the host algorithm
on the AoS buffer, then marks SoA stale and AoS authoritative. -/
def step (s : BoidsSimulation) : BoidsSimulation :=
  if s.ptx && s.hasSoa then
    let s1 := if s.soa_dirty then sync_soa_from_aos s else s
    { s1 with aos_dirty := true, last_used_cuda := true, soa_dirty := false }
  else
    let s1 := ensure_aos_current s
    { s1 with last_used_cuda := false, soa_dirty := true, aos_dirty := false }

/-- `BoidsSimulation::get_boids` (`boids.rs:463-481`): syncs AoS if stale,
then reads the AoS buffer; no flag is set. -/
def get_boids (s : BoidsSimulation) : BoidsSimulation :=
  ensure_aos_current s

/-- States of a `BoidsSimulation` reachable from construction by any
sequence of `step`, `get_boids` and synchronization calls. -/
inductive Reachable : BoidsSimulation → Prop
  | new (ptxLoaded : Bool) : Reachable (new ptxLoaded)
  | step {s : BoidsSimulation} : Reachable s → Reachable (step s)
  | get_boids {s : BoidsSimulation} : Reachable s → Reachable (get_boids s)
  | sync_soa {s : BoidsSimulation} : Reachable s → Reachable (sync_soa_from_aos s)
  | sync_aos {s : BoidsSimulation} : Reachable s → Reachable (sync_aos_from_soa s)

end BoidsSimulation

/-- Counterexample to C2 as stated: with the PTX kernel loaded,
`BoidsSimulation::new` is reachable with BOTH dirty flags clear
(`soa_dirty = false` at `boids.rs:151`, `aos_dirty = false` at
`boids.rs:166`), so it is not the case that exactly one flag is set at
every reachable state. -/
theorem boids_new_both_flags_clear :
    BoidsSimulation.Reachable (BoidsSimulation.new true) ∧
    (BoidsSimulation.new true).soa_dirty = false ∧
    (BoidsSimulation.new true).aos_dirty = false :=
  ⟨BoidsSimulation.Reachable.new true, rfl, rfl⟩

/-- Claim C2 (amended): at every reachable state of a `BoidsSimulation` AT
MOST one of the two dirty flags is set (never both); a synchronization copy
into a layout clears that layout's flag and leaves the other layout's flag
unchanged — the other flag is set by the next `step` that mutates the other
layout, not by the synchronization itself, so immediately after
construction with a kernel or after a synchronization both flags may be
clear. -/
theorem boids_at_most_one_dirty (s : BoidsSimulation)
    (h : BoidsSimulation.Reachable s) :
    ¬(s.soa_dirty = true ∧ s.aos_dirty = true) ∧
    (BoidsSimulation.sync_soa_from_aos s).soa_dirty = false ∧
    (BoidsSimulation.sync_soa_from_aos s).aos_dirty = s.aos_dirty ∧
    (BoidsSimulation.sync_aos_from_soa s).aos_dirty = false ∧
    (BoidsSimulation.sync_aos_from_soa s).soa_dirty = s.soa_dirty := by
  refine ⟨?_, ?_, ?_, ?_, ?_⟩
  · induction h with
    | new p => cases p <;> simp [BoidsSimulation.new]
    | step s ih =>
        rename_i t
        cases t
        simp [BoidsSimulation.step, BoidsSimulation.ensure_aos_current,
          BoidsSimulation.sync_soa_from_aos, BoidsSimulation.sync_aos_from_soa]
        split <;> simp
    | get_boids s ih =>
        rename_i t
        revert ih
        cases t
        simp [BoidsSimulation.get_boids, BoidsSimulation.ensure_aos_current,
          BoidsSimulation.sync_aos_from_soa]
        split <;> simp_all
    | sync_soa s ih =>
        rename_i t
        revert ih
        cases t
        simp [BoidsSimulation.sync_soa_from_aos]
    | sync_aos s ih =>
        rename_i t
        revert ih
        cases t
        simp [BoidsSimulation.sync_aos_from_soa]
  · simp [BoidsSimulation.sync_soa_from_aos]
  · simp [BoidsSimulation.sync_soa_from_aos]
  · simp [BoidsSimulation.sync_aos_from_soa]
  · simp [BoidsSimulation.sync_aos_from_soa]

/-- Witness for C2 (amended), applied to the kernel-free initial state. -/
theorem boids_at_most_one_dirty_witness :
    ¬((BoidsSimulation.new false).soa_dirty = true ∧
      (BoidsSimulation.new false).aos_dirty = true) ∧
    (BoidsSimulation.sync_soa_from_aos (BoidsSimulation.new false)).soa_dirty = false ∧
    (BoidsSimulation.sync_soa_from_aos (BoidsSimulation.new false)).aos_dirty =
      (BoidsSimulation.new false).aos_dirty ∧
    (BoidsSimulation.sync_aos_from_soa (BoidsSimulation.new false)).aos_dirty = false ∧
    (BoidsSimulation.sync_aos_from_soa (BoidsSimulation.new false)).soa_dirty =
      (BoidsSimulation.new false).soa_dirty :=
  boids_at_most_one_dirty (BoidsSimulation.new false)
    (BoidsSimulation.Reachable.new false)

/-!
Adaptive-rate bookkeeping of the engine's background loop
(`simulation_engine.rs:88-190`).

`target_fps` and the arithmetic on it are `f32` in the source; the
embedding uses exact rationals, with the literals `0.9`, `1.0`, `100.0`,
`500.0` as the rationals they denote.  The claims settled against this
model (ordering and equality with those constants) are robust to the
one-ulp differences between exact rational and `f32` evaluation.
Whether a frame was over budget (`elapsed > target_duration`) depends on
wall-clock time, so it enters the model as a boolean input per iteration.
-/

namespace SimulationEngine

/-- `ADAPTIVE_THRESHOLD` (`simulation_engine.rs:89`). -/
def ADAPTIVE_THRESHOLD : Nat := 50

/-- `MIN_FPS` (`simulation_engine.rs:90`). -/
def MIN_FPS : ℚ := 100

/-- The rate-adaptation state of the loop: `target_fps` and
`consecutive_delays` (`simulation_engine.rs:14,19`). -/
structure LoopState where
  target_fps : ℚ
  consecutive_delays : Nat
  deriving DecidableEq, Repr

/-- Values set by `SimulationEngine::new` (`simulation_engine.rs:34,38`):
500 Hz target, zero consecutive delays. -/
def initState : LoopState := { target_fps := 500, consecutive_delays := 0 }

/-- One iteration's rate-adaptation bookkeeping
(`simulation_engine.rs:144-184`).  `overBudget` is `elapsed >
target_duration`.  Over budget: increment the delay counter; at the
threshold compute `(fps * 0.9).max(MIN_FPS)` and apply it — resetting the
counter — only when it differs from the current rate by more than `1.0`.
Under budget: reset the counter. -/
def loopIter (overBudget : Bool) (s : LoopState) : LoopState :=
  if overBudget then
    let delays := s.consecutive_delays + 1
    if ADAPTIVE_THRESHOLD ≤ delays then
      let new_fps := max (s.target_fps * (9 / 10)) MIN_FPS
      if 1 < |new_fps - s.target_fps| then
        { target_fps := new_fps, consecutive_delays := 0 }
      else
        { target_fps := s.target_fps, consecutive_delays := delays }
    else
      { target_fps := s.target_fps, consecutive_delays := delays }
  else
    { target_fps := s.target_fps, consecutive_delays := 0 }

/-- The background loop, iterated over a finite schedule of over-budget
flags. -/
def runLoop (s : LoopState) : List Bool → LoopState
  | [] => s
  | b :: bs => runLoop (loopIter b s) bs

theorem loopIter_fps_bounds (b : Bool) (s : LoopState)
    (h : MIN_FPS ≤ s.target_fps) :
    MIN_FPS ≤ (loopIter b s).target_fps ∧
    (loopIter b s).target_fps ≤ s.target_fps := by
  have h0 : (0 : ℚ) ≤ s.target_fps := le_trans (by norm_num [MIN_FPS]) h
  have hmul : s.target_fps * (9 / 10) ≤ s.target_fps := by linarith
  cases b with
  | false =>
      constructor
      · simpa [loopIter] using h
      · simp [loopIter]
  | true =>
      unfold loopIter
      simp only [if_true]
      split
      · split
        · exact ⟨le_max_right _ _, max_le hmul h⟩
        · exact ⟨h, le_refl _⟩
      · exact ⟨h, le_refl _⟩

theorem runLoop_fps_bounds (bs : List Bool) (s : LoopState)
    (h : MIN_FPS ≤ s.target_fps) :
    MIN_FPS ≤ (runLoop s bs).target_fps ∧
    (runLoop s bs).target_fps ≤ s.target_fps := by
  induction bs generalizing s with
  | nil => exact ⟨h, le_refl _⟩
  | cons b bs ih =>
      have hb := loopIter_fps_bounds b s h
      have := ih (loopIter b s) hb.1
      exact ⟨this.1, le_trans this.2 hb.2⟩

theorem runLoop_append (s : LoopState) (bs ext : List Bool) :
    runLoop s (bs ++ ext) = runLoop (runLoop s bs) ext := by
  induction bs generalizing s with
  | nil => rfl
  | cons b bs ih => simp [runLoop, ih]

end SimulationEngine

/-- Claim C3: along every execution of the engine's background loop (every
over-budget schedule `bs` and every continuation `ext`), `target_fps` is
monotonically non-increasing over time and never drops below the
`MIN_FPS = 100` floor. -/
theorem engine_fps_monotone_above_floor (bs ext : List Bool) :
    SimulationEngine.MIN_FPS ≤
      (SimulationEngine.runLoop SimulationEngine.initState (bs ++ ext)).target_fps ∧
    (SimulationEngine.runLoop SimulationEngine.initState (bs ++ ext)).target_fps ≤
      (SimulationEngine.runLoop SimulationEngine.initState bs).target_fps := by
  have hinit : SimulationEngine.MIN_FPS ≤ SimulationEngine.initState.target_fps := by
    norm_num [SimulationEngine.MIN_FPS, SimulationEngine.initState]
  have hbs := SimulationEngine.runLoop_fps_bounds bs SimulationEngine.initState hinit
  have hext := SimulationEngine.runLoop_fps_bounds ext
    (SimulationEngine.runLoop SimulationEngine.initState bs) hbs.1
  rw [SimulationEngine.runLoop_append]
  exact ⟨hext.1, hext.2⟩

/-- Counterexample to C8 as stated: at the floor (`target_fps = 100`), when
the consecutive-delay counter reaches the threshold (50th consecutive
over-budget frame), the guard `(new_fps - fps).abs() > 1.0`
(`simulation_engine.rs:153`) is false, so the counter is NOT reset: it
advances to 50 instead of 0. -/
theorem adaptive_threshold_no_reset_at_floor :
    SimulationEngine.loopIter true { target_fps := 100, consecutive_delays := 49 } =
      { target_fps := 100, consecutive_delays := 50 } ∧
    (SimulationEngine.loopIter true
      { target_fps := 100, consecutive_delays := 49 }).consecutive_delays ≠ 0 := by
  constructor
  · simp [SimulationEngine.loopIter, SimulationEngine.ADAPTIVE_THRESHOLD,
      SimulationEngine.MIN_FPS]
    norm_num
  · simp [SimulationEngine.loopIter, SimulationEngine.ADAPTIVE_THRESHOLD,
      SimulationEngine.MIN_FPS]
    norm_num

/-- Claim C8 (amended): when the consecutive-delay counter reaches
`ADAPTIVE_THRESHOLD = 50` on an over-budget frame, the candidate rate
`max (target_fps * 0.9) MIN_FPS` is applied and the counter reset to zero
only when the candidate differs from the current rate by more than `1.0` —
equivalently (for rates at or above the floor) when the current rate
exceeds `101`; at rates in `[100, 101]` the rate is left unchanged and the
counter keeps incrementing instead of resetting. -/
theorem adaptive_threshold_guarded_reduce (s : SimulationEngine.LoopState)
    (hfloor : SimulationEngine.MIN_FPS ≤ s.target_fps)
    (hthr : SimulationEngine.ADAPTIVE_THRESHOLD ≤ s.consecutive_delays + 1) :
    (101 < s.target_fps →
      SimulationEngine.loopIter true s =
        { target_fps := max (s.target_fps * (9 / 10)) SimulationEngine.MIN_FPS,
          consecutive_delays := 0 }) ∧
    (s.target_fps ≤ 101 →
      SimulationEngine.loopIter true s =
        { target_fps := s.target_fps,
          consecutive_delays := s.consecutive_delays + 1 }) := by
  have h100 : (100 : ℚ) ≤ s.target_fps := by
    simpa [SimulationEngine.MIN_FPS] using hfloor
  have hmul : s.target_fps * (9 / 10) ≤ s.target_fps := by linarith
  have hmax : max (s.target_fps * (9 / 10)) SimulationEngine.MIN_FPS ≤ s.target_fps :=
    max_le hmul hfloor
  constructor
  · intro hgt
    have hguard :
        1 < |max (s.target_fps * (9 / 10)) SimulationEngine.MIN_FPS - s.target_fps| := by
      rw [abs_of_nonpos (by linarith), neg_sub]
      have hlt : max (s.target_fps * (9 / 10)) SimulationEngine.MIN_FPS <
          s.target_fps - 1 := by
        apply max_lt
        · linarith
        · simp only [SimulationEngine.MIN_FPS]
          linarith
      linarith
    simp [SimulationEngine.loopIter, hthr, hguard]
  · intro hle
    have hguard :
        ¬(1 < |max (s.target_fps * (9 / 10)) SimulationEngine.MIN_FPS - s.target_fps|) := by
      rw [abs_of_nonpos (by linarith), neg_sub, not_lt]
      have hge : SimulationEngine.MIN_FPS ≤
          max (s.target_fps * (9 / 10)) SimulationEngine.MIN_FPS := le_max_right _ _
      have hM : SimulationEngine.MIN_FPS = 100 := rfl
      linarith [hge, hM]
    simp [SimulationEngine.loopIter, hthr, hguard]

/-- Witness for C8 (amended) at the state `target_fps = 500`,
`consecutive_delays = 49`: the 50th over-budget frame reduces the rate to
`450 = max (500 * 0.9) 100` and resets the counter. -/
theorem adaptive_threshold_guarded_reduce_witness :
    (101 < (500 : ℚ) →
      SimulationEngine.loopIter true { target_fps := 500, consecutive_delays := 49 } =
        { target_fps := max ((500 : ℚ) * (9 / 10)) SimulationEngine.MIN_FPS,
          consecutive_delays := 0 }) ∧
    ((500 : ℚ) ≤ 101 →
      SimulationEngine.loopIter true { target_fps := 500, consecutive_delays := 49 } =
        { target_fps := 500, consecutive_delays := 49 + 1 }) :=
  adaptive_threshold_guarded_reduce { target_fps := 500, consecutive_delays := 49 }
    (by norm_num [SimulationEngine.MIN_FPS])
    (by norm_num [SimulationEngine.ADAPTIVE_THRESHOLD])

namespace SimulationEngine

/-- Control state of a `SimulationEngine` (`simulation_engine.rs:10-20`):
the running flag and the mutable bookkeeping fields a redundant `start`
could conceivably touch. -/
structure EngineState where
  running : Bool
  target_fps : ℚ
  frame_count : Nat
  consecutive_delays : Nat
  deriving DecidableEq, Repr

/-- Field values set by `SimulationEngine::new`
(`simulation_engine.rs:30-39`). -/
def newEngine : EngineState :=
  { running := false, target_fps := 500, frame_count := 0,
    consecutive_delays := 0 }

/-- `SimulationEngine::start` (`simulation_engine.rs:42-53,66,193`): if the
running flag is already set, log a warning and return `Ok(())` without
touching any state or spawning a thread; otherwise set the flag, spawn the
one background loop thread, and return `Ok(())`.  The result triple is
(returned `Result`, engine state after the call, number of threads
spawned by the call). -/
def start (e : EngineState) : Except String Unit × EngineState × Nat :=
  if e.running then (.ok (), e, 0)
  else (.ok (), { e with running := true }, 1)

end SimulationEngine

/-- Claim C9: calling `start()` on an engine that is already running
returns `Ok` (not an error), leaves the engine state — including the
running flag — unchanged, and spawns no second thread. -/
theorem start_on_running_engine_noop (e : SimulationEngine.EngineState)
    (h : e.running = true) :
    SimulationEngine.start e = (.ok (), e, 0) := by
  simp [SimulationEngine.start, h]

/-- Witness for C9 at a freshly constructed engine after one successful
`start`. -/
theorem start_on_running_engine_noop_witness :
    SimulationEngine.start
      { running := true, target_fps := 500, frame_count := 0,
        consecutive_delays := 0 } =
      (.ok (), { running := true, target_fps := 500, frame_count := 0,
                 consecutive_delays := 0 }, 0) :=
  start_on_running_engine_noop
    { running := true, target_fps := 500, frame_count := 0,
      consecutive_delays := 0 } rfl

namespace CudaContext

/-- `CudaContext::ensure_context` (`cuda.rs:38-65`): the input is the
outcome of `Context::create_and_push` on the calling thread; on success it
returns `Ok(())`, and on failure it logs a warning and still returns
`Ok(())` (the error is swallowed). -/
def ensure_context (createResult : Except String Unit) : Except String Unit :=
  match createResult with
  | .ok _ => .ok ()
  | .error _ => .ok ()

end CudaContext

namespace SimulationEngine

/-- The bounded-retry loop at the head of `SimulationEngine::get_state`
(`simulation_engine.rs:206-219`): call `ensure_context`, break on `Ok`; on
`Err` decrement the retry budget and fail with the retries-exhausted
message when it hits zero, else retry.  `results k` is the
`create_and_push` outcome seen by the k-th attempt; the budget starts
at 3. -/
def ensureContextRetry (results : Nat → Except String Unit) :
    Nat → Nat → Except String Unit
  | _, 0 => .error "Failed to ensure CUDA context after retries"
  | k, r + 1 =>
      match CudaContext.ensure_context (results k) with
      | .ok _ => .ok ()
      | .error _ =>
          if r = 0 then .error "Failed to ensure CUDA context after retries"
          else ensureContextRetry results (k + 1) r

/-- The context-acquisition phase of `get_state`, entered with
`retries = 3` (`simulation_engine.rs:206`). -/
def get_state_context (results : Nat → Except String Unit) :
    Except String Unit :=
  ensureContextRetry results 0 3

end SimulationEngine

/-- Claim C10: `CudaContext::ensure_context` returns `Ok` for every
outcome of context creation (failures are logged and swallowed), so the
bounded-retry loop in `SimulationEngine::get_state` always succeeds on its
first attempt and can never return the retries-exhausted error. -/
theorem ensure_context_always_ok :
    (∀ r : Except String Unit, CudaContext.ensure_context r = .ok ()) ∧
    (∀ results : Nat → Except String Unit,
      SimulationEngine.get_state_context results = .ok ()) := by
  constructor
  · intro r
    cases r <;> rfl
  · intro results
    unfold SimulationEngine.get_state_context SimulationEngine.ensureContextRetry
    cases h : results 0 <;> simp [CudaContext.ensure_context]
